import Mathlib

/-!
Verification of the Temporal Analysis and Job Orchestration Pipeline of the
microbial-segmentation repository. Definitions are shallow embeddings of
the Python source in `backend/app/` (job_manager.py, video_utils.py,
postprocessing.py, inference.py). Machine floats are modelled as exact
rationals or reals, numpy arrays as index functions with explicit bounds,
and the mutable job dictionary as an association list together with an
explicit heap that tracks the identity of nested result payloads.
-/

namespace MicrobialSeg

/-! ## Job registry (backend/app/job_manager.py) -/

/-- `class JobStatus(str, Enum)` from job_manager.py. -/
inductive JobStatus where
  | queued
  | running
  | completed
  | failed
deriving DecidableEq, Repr

/-- `class JobStage(str, Enum)` from job_manager.py. -/
inductive JobStage where
  | upload
  | preprocessing
  | inference
  | postprocessing
  | videoGeneration
  | savingResults
deriving DecidableEq, Repr

/-- One job dictionary, as built by `JobManager.create_job`. Timestamps are
modelled as abstract natural numbers supplied by the caller (the code reads
`datetime.now()`); the `results` field holds a reference (an index into the
registry heap) because the Python value is a shared mutable dictionary and
`get_job` only makes a shallow copy. -/
structure Job where
  job_id : String
  status : JobStatus
  progress : ℚ
  stage : JobStage
  message : String
  file_type : String
  filename : String
  created_at : ℕ
  updated_at : ℕ
  error : Option String
  results : Option ℕ
deriving DecidableEq, Repr

/-- The state owned by a `JobManager`: the `self.jobs` dictionary plus a heap
of result payloads. Each call that stores a results object allocates a fresh
heap cell; cells are never mutated, mirroring the fact that `update_job` only
rebinds the `results` key of the live dictionary and never writes into a
previously stored payload object. -/
structure RegistryState (ρ : Type) where
  jobs : List (String × Job)
  heap : List ρ
deriving DecidableEq

/-- The empty registry (a fresh `JobManager()`). -/
def RegistryState.empty (ρ : Type) : RegistryState ρ := ⟨[], []⟩

/-- The job dictionary literal built by `JobManager.create_job`. -/
def freshJob (job_id file_type filename : String) (now : ℕ) : Job :=
  { job_id := job_id
    status := JobStatus.queued
    progress := 0
    stage := JobStage.upload
    message := "Job queued"
    file_type := file_type
    filename := filename
    created_at := now
    updated_at := now
    error := none
    results := none }

/-- `JobManager.create_job`: the source performs a plain dictionary
assignment `self.jobs[job_id] = {...}`, so an existing entry with the same
id is overwritten unconditionally. -/
def create_job {ρ : Type} (s : RegistryState ρ) (job_id file_type filename : String)
    (now : ℕ) : RegistryState ρ :=
  { s with jobs := (job_id, freshJob job_id file_type filename now) ::
      s.jobs.filter (fun kv => decide (kv.1 ≠ job_id)) }

/-- `JobManager.update_job`: returns early when the id is unknown; otherwise
merges exactly the fields that were passed (`if x is not None: job[...] = x`)
and refreshes `updated_at`. Passing a results object allocates a fresh heap
cell and stores the reference. -/
def update_job {ρ : Type} (s : RegistryState ρ) (job_id : String)
    (status : Option JobStatus) (progress : Option ℚ) (stage : Option JobStage)
    (message : Option String) (error : Option String) (results : Option ρ)
    (now : ℕ) : RegistryState ρ :=
  match s.jobs.lookup job_id with
  | none => s
  | some job =>
    let merged : Job :=
      { job with
        status := status.getD job.status
        progress := progress.getD job.progress
        stage := stage.getD job.stage
        message := message.getD job.message
        error := match error with | some e => some e | none => job.error
        results := match results with | some _ => some s.heap.length | none => job.results
        updated_at := now }
    { jobs := s.jobs.map (fun kv => if kv.1 = job_id then (kv.1, merged) else kv)
      heap := match results with | some r => s.heap ++ [r] | none => s.heap }

/-- `JobManager.get_job`: returns `self.jobs.get(job_id, {}).copy()`, a
shallow copy, when the id is present. In the embedding the returned `Job` is
a value; the `results` field still carries the shared heap reference, exactly
like the shallow copy shares the nested payload object. -/
def get_job {ρ : Type} (s : RegistryState ρ) (job_id : String) : Option Job :=
  s.jobs.lookup job_id

/-- `JobManager.mark_failed`: `update_job` with status Failed, progress 100
and the error message. -/
def mark_failed {ρ : Type} (s : RegistryState ρ) (job_id : String) (error : String)
    (now : ℕ) : RegistryState ρ :=
  update_job s job_id (some JobStatus.failed) (some 100) none none (some error) none now

/-- `JobManager.mark_completed`: `update_job` with status Completed, progress
100, stage Saving Results, a fixed message and the results payload. -/
def mark_completed {ρ : Type} (s : RegistryState ρ) (job_id : String) (results : ρ)
    (now : ℕ) : RegistryState ρ :=
  update_job s job_id (some JobStatus.completed) (some 100) (some JobStage.savingResults)
    (some "Processing completed") none (some results) now

/-- The payload a previously returned snapshot refers to, read through the
heap of a given state. Mutation of the live registry can only affect this
value if some operation overwrites an existing heap cell. -/
def snapshot_payload {ρ : Type} (s : RegistryState ρ) (job : Job) : Option ρ :=
  job.results.bind (fun r => s.heap[r]?)

/-! ## Frame windower (backend/app/video_utils.py, create_frame_sequence) -/

/-- `create_frame_sequence` from video_utils.py: for
`center_idx in range(half_window, len(all_frames) - half_window)` collect
`(center_idx, [all_frames[center_idx - half_window + i] for i in range(window_size)])`.
All generated indices are in bounds, so the out-of-range default of `getD`
is never consulted. -/
def create_frame_sequence {α : Type} [Inhabited α] (all_frames : List α)
    (window_size : ℕ) : List (ℕ × List α) :=
  let half_window := window_size / 2
  (List.range' half_window (all_frames.length - 2 * half_window)).map
    (fun center_idx =>
      (center_idx,
        (List.range window_size).map
          (fun i => all_frames.getD (center_idx - half_window + i) default)))

/-! ## Masks, connected components, mask cleaning
(backend/app/postprocessing.py and inference.py line 299) -/

/-- A numpy H by W array with entries of type α. Entries outside the bounds
are junk; every statement about grids is made pointwise inside the bounds. -/
structure Grid (α : Type) where
  H : ℕ
  W : ℕ
  data : ℕ → ℕ → α

/-- Pixel coordinates inside a grid. -/
def Grid.cells {α : Type} (m : Grid α) : Finset (ℕ × ℕ) :=
  Finset.range m.H ×ˢ Finset.range m.W

/-- Foreground pixels of a float mask: the pixels with `mask > 0`, exactly
the binarisation `(mask > 0).astype(np.uint8)` performed by `clean_mask`. -/
def foreground (m : Grid ℚ) : Finset (ℕ × ℕ) :=
  m.cells.filter (fun p => 0 < m.data p.1 p.2)

/-- 8-neighbourhood adjacency between pixel coordinates: distinct pixels
whose row and column each differ by at most one. This is skimage
`connectivity=2` for a 2-dimensional image. -/
def adj8 (p q : ℕ × ℕ) : Prop :=
  p ≠ q ∧ (max p.1 q.1 - min p.1 q.1 ≤ 1) ∧ (max p.2 q.2 - min p.2 q.2 ≤ 1)

instance : DecidablePred (fun pq : (ℕ × ℕ) × (ℕ × ℕ) => adj8 pq.1 pq.2) :=
  fun _ => by unfold adj8; infer_instance

instance (p q : ℕ × ℕ) : Decidable (adj8 p q) := by unfold adj8; infer_instance

/-- One expansion step of a connected-component flood fill inside the
foreground set `fg`: keep every foreground pixel already in `S` or adjacent
to a pixel of `S`. -/
def growComponent (fg S : Finset (ℕ × ℕ)) : Finset (ℕ × ℕ) :=
  fg.filter (fun q => q ∈ S ∨ ∃ r ∈ S, adj8 r q)

/-- The connected component of pixel `p` in the foreground set `fg`, the
label class `labeled == prop.label` that `skimage.measure.label(...,
connectivity=2)` assigns to `p`. Computed by iterating the flood fill once
per foreground pixel, which reaches the closure. Meaningful for `p ∈ fg`. -/
def componentOf (fg : Finset (ℕ × ℕ)) (p : ℕ × ℕ) : Finset (ℕ × ℕ) :=
  (growComponent fg)^[fg.card] {p}

/-- The set of connected components of a float mask, one Finset of pixels
per label produced by `measure.label(mask_binary, connectivity=2)`. -/
def components (m : Grid ℚ) : Finset (Finset (ℕ × ℕ)) :=
  (foreground m).image (componentOf (foreground m))

/-- The component-area filter inside `clean_mask` (postprocessing.py lines
26 to 32): label the binarised mask, then set `cleaned[labeled == label] = 1`
exactly for the labels with `prop.area >= min_area`. Pointwise, a pixel
survives iff it is foreground and its component has at least `min_area`
pixels. -/
def remove_small (m : Grid ℚ) (min_area : ℕ) : Grid ℚ :=
  { H := m.H, W := m.W
    data := fun i j =>
      if (i, j) ∈ foreground m ∧ min_area ≤ (componentOf (foreground m) (i, j)).card
      then 1 else 0 }

/-- `cv2.erode(cleaned, kernel, iterations=1)` with structuring element
offsets `K` (offsets relative to the anchor). A pixel stays foreground iff
every kernel offset that lands inside the image lands on a foreground pixel;
positions outside the image use the default OpenCV border value for erosion,
which never removes a pixel. -/
def erode (m : Grid ℚ) (K : Finset (ℤ × ℤ)) : Grid ℚ :=
  { H := m.H, W := m.W
    data := fun i j =>
      if ∀ d ∈ K, (0 ≤ (i : ℤ) + d.1 ∧ (i : ℤ) + d.1 < (m.H : ℤ) ∧
          0 ≤ (j : ℤ) + d.2 ∧ (j : ℤ) + d.2 < (m.W : ℤ)) →
          0 < m.data ((i : ℤ) + d.1).toNat ((j : ℤ) + d.2).toNat
      then 1 else 0 }

/-- `clean_mask` from postprocessing.py: binarise at zero, drop the
connected components smaller than `min_area`, then erode once when
`erosion_kernel_size > 0`. The structuring element `K` stands for
`cv2.getStructuringElement(cv2.MORPH_ELLIPSE, (k, k))`, the elliptical
kernel raster produced by OpenCV for size k by k; the anchor offset `(0,0)`
always belongs to it. -/
def clean_mask (mask : Grid ℚ) (min_area : ℕ) (erosion_kernel_size : ℕ)
    (K : Finset (ℤ × ℤ)) : Grid ℚ :=
  let cleaned := remove_small mask min_area
  if 0 < erosion_kernel_size then erode cleaned K else cleaned

/-- The thresholding step `(pred_mask > threshold).astype(np.float32)` from
inference.py line 299, which feeds `clean_mask`. -/
def threshold_mask (prob : Grid ℚ) (t : ℚ) : Grid ℚ :=
  { H := prob.H, W := prob.W
    data := fun i j => if t < prob.data i j then 1 else 0 }

/-- The MaskCleaner composite of the specification: threshold the
probability mask (inference.py line 299) and clean it (line 300 calling
postprocessing.clean_mask). -/
def mask_cleaner (prob : Grid ℚ) (t : ℚ) (min_area : ℕ) (erosion_kernel_size : ℕ)
    (K : Finset (ℤ × ℤ)) : Grid ℚ :=
  clean_mask (threshold_mask prob t) min_area erosion_kernel_size K

/-- A grid is all zero inside its bounds. -/
def allZero (m : Grid ℚ) : Prop :=
  ∀ i j, i < m.H → j < m.W → m.data i j = 0

/-- Two grids agree: same shape and same entries inside the bounds. -/
def Grid.eqOn (m m₂ : Grid ℚ) : Prop :=
  m.H = m₂.H ∧ m.W = m₂.W ∧ ∀ i j, i < m.H → j < m.W → m.data i j = m₂.data i j

/-! ## Phenotype classification and frame analysis
(backend/app/postprocessing.py, classify_phenotype and analyze_frame) -/

/-- The region measurements read from one `skimage.measure.regionprops`
entry by `classify_phenotype` and `analyze_frame`. The axis lengths and the
solidity are moment and convex-hull computations performed inside skimage
(an external library); they enter the core as plain numbers. The bbox is
`(min_row, min_col, max_row, max_col)`. -/
structure Region where
  major_axis_length : ℚ
  minor_axis_length : ℚ
  bbox_min_row : ℕ
  bbox_min_col : ℕ
  bbox_max_row : ℕ
  bbox_max_col : ℕ
  area : ℕ
  solidity : ℚ
deriving DecidableEq

/-- The aspect ratio computed at the top of `classify_phenotype`:
major over minor axis when the minor axis is positive, otherwise the
bounding-box fallback `max(height, width) / (min(height, width) + 1e-6)`. -/
def region_aspect_ratio (r : Region) : ℚ :=
  if 0 < r.minor_axis_length then r.major_axis_length / r.minor_axis_length
  else
    let height : ℚ := ((r.bbox_max_row - r.bbox_min_row : ℕ) : ℚ)
    let width : ℚ := ((r.bbox_max_col - r.bbox_min_col : ℕ) : ℚ)
    max height width / (min height width + 1e-6)

/-- `classify_phenotype` from postprocessing.py: the ordered rule chain over
aspect ratio, area and solidity. The source guards `region.solidity` with
`hasattr`, which always holds for regionprops entries, so the solidity field
is read directly. -/
def classify_phenotype (r : Region) : String :=
  let aspect_ratio := region_aspect_ratio r
  if 3 ≤ aspect_ratio then "elongated"
  else if 2 ≤ aspect_ratio ∧ aspect_ratio < 3 then
    (if 200 < r.area then "rod_like" else "other")
  else if aspect_ratio < 1.8 ∧ (0.8 : ℚ) ≤ r.solidity then "compact"
  else "other"

/-- The aspect ratio as worded by claim C5: major over minor axis length, or
the exact bounding-box long-side over short-side ratio when the minor axis
length is zero. Stated from the claim text, for comparison with
`region_aspect_ratio`. -/
def region_aspect_ratio_claimC5 (r : Region) : ℚ :=
  if r.minor_axis_length = 0 then
    let height : ℚ := ((r.bbox_max_row - r.bbox_min_row : ℕ) : ℚ)
    let width : ℚ := ((r.bbox_max_col - r.bbox_min_col : ℕ) : ℚ)
    max height width / min height width
  else r.major_axis_length / r.minor_axis_length

/-- The classification chain exactly as worded by claim C5, using the exact
bounding-box ratio fallback. Stated from the claim text, for comparison with
`classify_phenotype`. -/
def classify_phenotype_claimC5 (r : Region) : String :=
  let aspect_ratio := region_aspect_ratio_claimC5 r
  if 3 ≤ aspect_ratio then "elongated"
  else if 2 ≤ aspect_ratio ∧ aspect_ratio < 3 ∧ 200 < r.area then "rod_like"
  else if 2 ≤ aspect_ratio ∧ aspect_ratio < 3 ∧ r.area ≤ 200 then "other"
  else if aspect_ratio < 1.8 ∧ (0.8 : ℚ) ≤ r.solidity then "compact"
  else "other"

/-- The claim C5 chain with the aspect ratio the source actually computes
(the `1e-6` fallback); this is the amended form of claim C5. -/
def classify_phenotype_claimC5_amended (r : Region) : String :=
  let aspect_ratio := region_aspect_ratio r
  if 3 ≤ aspect_ratio then "elongated"
  else if 2 ≤ aspect_ratio ∧ aspect_ratio < 3 ∧ 200 < r.area then "rod_like"
  else if 2 ≤ aspect_ratio ∧ aspect_ratio < 3 ∧ r.area ≤ 200 then "other"
  else if aspect_ratio < 1.8 ∧ (0.8 : ℚ) ≤ r.solidity then "compact"
  else "other"

/-- `compute_biomass` from postprocessing.py: `np.sum(mask > 0)`. -/
def compute_biomass (mask : Grid ℚ) : ℕ :=
  (foreground mask).card

/-- `analyze_frame` from postprocessing.py: biomass, the phenotype count
dictionary with its four literal keys, and one component record per
regionprops entry. `descr` stands for the regionprops measurement of one
labelled component (an external skimage computation). The dictionary update
`phenotype_counts[phenotype] += 1` over the loop makes each count the number
of components classified with that key. -/
def phenotype_counts (mask : Grid ℚ) (descr : Finset (ℕ × ℕ) → Region) :
    List (String × ℕ) :=
  [("rod_like", ((components mask).filter
      (fun comp => classify_phenotype (descr comp) = "rod_like")).card),
   ("elongated", ((components mask).filter
      (fun comp => classify_phenotype (descr comp) = "elongated")).card),
   ("compact", ((components mask).filter
      (fun comp => classify_phenotype (descr comp) = "compact")).card),
   ("other", ((components mask).filter
      (fun comp => classify_phenotype (descr comp) = "other")).card)]

/-- The component list returned by `analyze_frame`: one record (here, the
pixel set with its phenotype) per labelled component. The source builds a
Python list in label order; the claims only use its size, so it is modelled
as a multiset of records. -/
def analyze_frame_components (mask : Grid ℚ) (descr : Finset (ℕ × ℕ) → Region) :
    Multiset (Finset (ℕ × ℕ) × String) :=
  (components mask).val.map (fun comp => (comp, classify_phenotype (descr comp)))

/-- `analyze_frame` bundled result: biomass, phenotype counts, components. -/
def analyze_frame (mask : Grid ℚ) (descr : Finset (ℕ × ℕ) → Region) :
    ℕ × List (String × ℕ) × Multiset (Finset (ℕ × ℕ) × String) :=
  (compute_biomass mask, phenotype_counts mask descr, analyze_frame_components mask descr)

/-! ## Division-event detection
(backend/app/postprocessing.py, detect_division_events, and the growth-rate
loop of inference.py lines 327 to 335) -/

/-- One entry of the growth-rate loop shared by `detect_division_events`
(postprocessing.py lines 156 to 161) and `_run_inference_pipeline`
(inference.py lines 329 to 334): for index `i` starting at 1,
`log(b[i] / (b[i-1] + 1e-6))` when `b[i-1] > 0`, else `0.0`. -/
noncomputable def growth_rate_at (b : List ℕ) (i : ℕ) : ℝ :=
  if 0 < b.getD (i - 1) 0 then
    Real.log ((b.getD i 0 : ℝ) / ((b.getD (i - 1) 0 : ℝ) + 1e-6))
  else 0

/-- The growth-rate list accumulated by the loop `for i in range(1, len(b))`. -/
noncomputable def growth_rates (b : List ℕ) : List ℝ :=
  (List.range' 1 (b.length - 1)).map (growth_rate_at b)

/-- `np.mean` of a list of reals. -/
noncomputable def list_mean (l : List ℝ) : ℝ :=
  l.sum / l.length

/-- `np.std` of a list of reals: the population standard deviation, the
square root of the mean squared deviation from the mean. -/
noncomputable def list_pop_std (l : List ℝ) : ℝ :=
  Real.sqrt (((l.map (fun x => (x - list_mean l) ^ 2)).sum) / l.length)

open Classical in
/-- `detect_division_events` from postprocessing.py: length below 3 returns
the empty list; otherwise for `i in range(1, len(growth_rates))` with
`frame_idx = i + 1`, append `frame_idx` when the growth spike test
(`std_rate > 0` and the rate exceeds `mean + growth_spike_std * std`) or the
component-count test (`frame_idx < len(component_counts)`, `frame_idx > 0`
and the increase is at least the threshold) fires. -/
noncomputable def detect_division_events (biomass_history component_counts : List ℕ)
    (growth_spike_std : ℝ) (component_increase_threshold : ℤ) : List ℕ :=
  if biomass_history.length < 3 then []
  else if (growth_rates biomass_history).length = 0 then []
  else
    (List.range' 1 ((growth_rates biomass_history).length - 1)).filterMap (fun i =>
      if (0 < list_pop_std (growth_rates biomass_history) ∧
            list_mean (growth_rates biomass_history) +
              growth_spike_std * list_pop_std (growth_rates biomass_history) <
              (growth_rates biomass_history).getD i 0)
          ∨ (i + 1 < component_counts.length ∧ 0 < i + 1 ∧
              component_increase_threshold ≤
                (component_counts.getD (i + 1) 0 : ℤ) -
                (component_counts.getD (i + 1 - 1) 0 : ℤ))
      then some (i + 1) else none)

/-- `detect_division_events` with both keyword parameters omitted: the
signature of the source declares `growth_spike_std: float = 1.0` and
`component_increase_threshold: int = 1`. -/
noncomputable def detect_division_events_defaults (biomass_history component_counts : List ℕ) :
    List ℕ :=
  detect_division_events biomass_history component_counts 1 1

/-- The growth-rate series computed by `_run_inference_pipeline`
(inference.py lines 327 to 335): the same loop as the detector followed by
`growth_rates.insert(0, 0.0)`, so the first analyzed frame gets rate 0. -/
noncomputable def pipeline_growth_rates (all_biomass : List ℕ) : List ℝ :=
  0 :: growth_rates all_biomass

/-- The `frame` column of the metrics table (inference.py line 411):
`list(range(len(all_biomass)))`. Every column of `metrics_data` has this
length, so the exported table has one row per analyzed frame. -/
def metrics_frame_column (all_biomass : List ℕ) : List ℕ :=
  List.range all_biomass.length

/-- The number of rows of the metrics export. -/
def metrics_num_rows (all_biomass : List ℕ) : ℕ :=
  (metrics_frame_column all_biomass).length

instance : Inhabited (Grid ℚ) := ⟨⟨0, 0, fun _ _ => 0⟩⟩

/-- The per-window biomass accumulation of `_run_inference_pipeline`: one
`analyze_frame` biomass per temporal window, where `predict_clean` stands
for the predictor followed by thresholding and `clean_mask` applied to one
window (deterministic for fixed parameters). -/
def pipeline_biomass (frames : List (Grid ℚ)) (predict_clean : List (Grid ℚ) → Grid ℚ) :
    List ℕ :=
  (create_frame_sequence frames 5).map (fun cw => compute_biomass (predict_clean cw.2))

/-! ### Claim C1 wording of the detector, for comparison -/

/-- The growth rate as worded by claim C1: `g[i] = ln(b[i] / (b[i-1] + 1e-6))`
with `g[i] = 0` whenever `b[i-1] = 0`. Stated from the claim text. -/
noncomputable def growth_rate_at_claimC1 (b : List ℕ) (i : ℕ) : ℝ :=
  if b.getD (i - 1) 0 = 0 then 0
  else Real.log ((b.getD i 0 : ℝ) / ((b.getD (i - 1) 0 : ℝ) + 1e-6))

/-- The growth-rate series of claim C1, `g[i]` for `i = 1 .. n-1`. -/
noncomputable def growth_rates_claimC1 (b : List ℕ) : List ℝ :=
  (List.range' 1 (b.length - 1)).map (growth_rate_at_claimC1 b)

open Classical in
/-- The event set as worded by claim C1: for each `i in 1 .. len(g) - 1`
with `frame_idx = i + 1`, an event at `frame_idx` exactly when the
population standard deviation of `g` is positive and `g[i]` exceeds
`mean + growth_spike_std * std`, or `frame_idx` is a valid index into the
component-count series and the count rose by at least the threshold; the
empty result for series shorter than 3. Stated from the claim text. -/
noncomputable def division_events_claimC1 (b c : List ℕ) (growth_spike_std : ℝ)
    (component_increase_threshold : ℤ) : List ℕ :=
  if b.length < 3 then []
  else
    (List.range' 2 ((growth_rates_claimC1 b).length - 1)).filter (fun frame_idx => decide
      ((0 < list_pop_std (growth_rates_claimC1 b) ∧
          list_mean (growth_rates_claimC1 b) +
            growth_spike_std * list_pop_std (growth_rates_claimC1 b) <
            growth_rate_at_claimC1 b frame_idx)
        ∨ (frame_idx < c.length ∧
            component_increase_threshold ≤
              (c.getD frame_idx 0 : ℤ) - (c.getD (frame_idx - 1) 0 : ℤ))))

/-! ## Theorems -/

/-- Looking a key up after rewriting the value stored at that key. -/
theorem lookup_map_if (l : List (String × Job)) (id : String) (j : Job) :
    (l.map (fun kv => if kv.1 = id then (kv.1, j) else kv)).lookup id
      = (l.lookup id).map (fun _ => j) := by
  induction l with
  | nil => simp
  | cons kv tl ih =>
    rcases kv with ⟨k, v⟩
    by_cases h : k = id
    · subst h
      simp [List.lookup_cons]
    · simp only [List.map_cons, if_neg h, List.lookup_cons,
        beq_false_of_ne (Ne.symm h)]
      exact ih

/-- Claim C3: for every frame sequence and odd window size W, the windower
yields exactly N - W + 1 pairs when N is at least W, each window of length
exactly W, with center indices running from W / 2 up to N - 1 - W / 2 in
order; and it yields the empty sequence when N is below W. -/
theorem C3_frame_windower {α : Type} [Inhabited α] (frames : List α) (W : ℕ)
    (hodd : Odd W) :
    (W ≤ frames.length →
      (create_frame_sequence frames W).length = frames.length - W + 1 ∧
      (create_frame_sequence frames W).map Prod.fst =
        List.range' (W / 2) (frames.length - W + 1) ∧
      ∀ p ∈ create_frame_sequence frames W, p.2.length = W) ∧
    (frames.length < W → create_frame_sequence frames W = []) := by
  obtain ⟨k, hk⟩ := hodd
  have hhalf : W / 2 = k := by omega
  constructor
  · intro hNW
    refine ⟨?_, ?_, ?_⟩
    · simp only [create_frame_sequence, List.length_map, List.length_range']
      omega
    · simp only [create_frame_sequence, List.map_map]
      have hcnt : frames.length - 2 * (W / 2) = frames.length - W + 1 := by omega
      rw [hcnt]
      exact List.map_id _
    · intro p hp
      simp only [create_frame_sequence, List.mem_map] at hp
      obtain ⟨c, _, rfl⟩ := hp
      simp
  · intro hNW
    have hcnt : frames.length - 2 * (W / 2) = 0 := by omega
    simp [create_frame_sequence, hcnt]

/-- Witness for C3 at 7 frames and window size 5: three windows, centered
at indices 2, 3, 4, each of length 5. -/
theorem C3_frame_windower_witness :
    Odd 5 ∧ 5 ≤ (List.replicate 7 (0 : ℚ)).length ∧
    (create_frame_sequence (List.replicate 7 (0 : ℚ)) 5).length = 3 ∧
    (create_frame_sequence (List.replicate 7 (0 : ℚ)) 5).map Prod.fst =
      List.range' 2 3 := by
  have h := C3_frame_windower (List.replicate 7 (0 : ℚ)) 5 (by decide)
  have h1 := (h.1 (by decide)).1
  have h2 := (h.1 (by decide)).2.1
  refine ⟨by decide, by decide, by simpa using h1, by simpa using h2⟩

/-- Amended claim C2: `create_job` never fails; for any job id, present or
not, it stores a fresh job in Queued state with progress 0 under that id,
overwriting any existing entry. -/
theorem C2_create_overwrites {ρ : Type} (s : RegistryState ρ) (id ft fn : String)
    (now : ℕ) :
    get_job (create_job s id ft fn now) id = some (freshJob id ft fn now) ∧
    (freshJob id ft fn now).status = JobStatus.queued ∧
    (freshJob id ft fn now).progress = 0 := by
  refine ⟨?_, rfl, rfl⟩
  simp [get_job, create_job, List.lookup_cons]

def c2_state0 : RegistryState ℕ :=
  create_job (RegistryState.empty ℕ) "job-1" "video" "a.mp4" 0

def c2_state1 : RegistryState ℕ := mark_completed c2_state0 "job-1" 42 1

def c2_state2 : RegistryState ℕ := create_job c2_state1 "job-1" "video" "b.mp4" 2

/-- Counterexample to claim C2: calling `create_job` with a job id that is
already present (here a completed job) does not fail; it replaces the entry
with a fresh queued job carrying the new filename. -/
theorem C2_counterexample :
    (get_job c2_state1 "job-1").map Job.status = some JobStatus.completed ∧
    (get_job c2_state2 "job-1").map Job.status = some JobStatus.queued ∧
    (get_job c2_state2 "job-1").map Job.progress = some 0 ∧
    (get_job c2_state2 "job-1").map Job.filename = some "b.mp4" := by
  refine ⟨rfl, rfl, rfl, rfl⟩

/-- Amended claim C9: the registry does not restrict status transitions.
`update_job` sets the status to exactly the supplied value whatever the
current status is, including backward moves, and leaves it unchanged when
none is supplied; `mark_failed` and `mark_completed` always produce the
Failed and Completed statuses. -/
theorem C9_update_sets_any_status {ρ : Type} (s : RegistryState ρ) (id : String)
    (job : Job) (st : Option JobStatus) (pr : Option ℚ) (stg : Option JobStage)
    (msg err : Option String) (res : Option ρ) (now : ℕ) (e : String) (rp : ρ)
    (h : get_job s id = some job) :
    (get_job (update_job s id st pr stg msg err res now) id).map Job.status
      = some (st.getD job.status) ∧
    (get_job (mark_failed s id e now) id).map Job.status = some JobStatus.failed ∧
    (get_job (mark_completed s id rp now) id).map Job.status
      = some JobStatus.completed := by
  unfold get_job at h
  refine ⟨?_, ?_, ?_⟩
  · unfold get_job update_job
    rw [h]
    simp only [lookup_map_if, h]
    rfl
  · unfold get_job mark_failed update_job
    rw [h]
    simp only [lookup_map_if, h]
    rfl
  · unfold get_job mark_completed update_job
    rw [h]
    simp only [lookup_map_if, h]
    rfl

/-- Witness for the amended C9 at a concrete registry. -/
theorem C9_update_sets_any_status_witness :
    get_job c2_state1 "job-1" ≠ none ∧
    (get_job (update_job c2_state1 "job-1" (some JobStatus.running) none none none
        none none 2) "job-1").map Job.status = some JobStatus.running := by
  have h : get_job c2_state1 "job-1" = some
      { job_id := "job-1", status := JobStatus.completed, progress := 100,
        stage := JobStage.savingResults, message := "Processing completed",
        file_type := "video", filename := "a.mp4", created_at := 0, updated_at := 1,
        error := none, results := some 0 } := rfl
  refine ⟨by rw [h]; exact Option.noConfusion, ?_⟩
  have h2 := (C9_update_sets_any_status c2_state1 "job-1" _
    (some JobStatus.running) none none none none none 2 "x" 0 h).1
  exact h2

def c9_state2 : RegistryState ℕ :=
  update_job c2_state1 "job-1" (some JobStatus.running) none none none none none 2

/-- Counterexample to claim C9: a Completed job is moved back to Running by
an `update_job` call that supplies status Running; nothing in the registry
rejects the backward transition. -/
theorem C9_counterexample :
    (get_job c2_state1 "job-1").map Job.status = some JobStatus.completed ∧
    (get_job c9_state2 "job-1").map Job.status = some JobStatus.running := by
  exact ⟨rfl, rfl⟩

/-- Heap cells already allocated are untouched by `update_job`: the heap is
only ever extended. -/
theorem update_job_heap_stable {ρ : Type} (s : RegistryState ρ) (id : String)
    (st : Option JobStatus) (pr : Option ℚ) (stg : Option JobStage)
    (msg err : Option String) (res : Option ρ) (now : ℕ) (r : ℕ)
    (hr : r < s.heap.length) :
    (update_job s id st pr stg msg err res now).heap[r]? = s.heap[r]? := by
  unfold update_job
  cases hl : s.jobs.lookup id with
  | none => rfl
  | some job =>
    cases res with
    | none => rfl
    | some rp => simp [List.getElem?_append_left hr]

/-- Claim C8: a snapshot returned by `get_job` is a copy; any later
`update_job`, `mark_failed` or `mark_completed` (on any job id) leaves every
field of the snapshot unchanged, including the nested result payload it
refers to, because those operations only rebind fields of the live entry and
allocate fresh payload cells. -/
theorem C8_snapshot_stable {ρ : Type} (s : RegistryState ρ) (id id2 : String)
    (job : Job) (st : Option JobStatus) (pr : Option ℚ) (stg : Option JobStage)
    (msg err : Option String) (res : Option ρ) (now : ℕ) (e : String) (rp : ρ)
    (hget : get_job s id = some job)
    (hvalid : ∀ r, job.results = some r → r < s.heap.length) :
    snapshot_payload (update_job s id2 st pr stg msg err res now) job
      = snapshot_payload s job ∧
    snapshot_payload (mark_failed s id2 e now) job = snapshot_payload s job ∧
    snapshot_payload (mark_completed s id2 rp now) job = snapshot_payload s job := by
  have key : ∀ (st2 : Option JobStatus) (pr2 : Option ℚ) (stg2 : Option JobStage)
      (msg2 err2 : Option String) (res2 : Option ρ) (now2 : ℕ),
      snapshot_payload (update_job s id2 st2 pr2 stg2 msg2 err2 res2 now2) job
        = snapshot_payload s job := by
    intro st2 pr2 stg2 msg2 err2 res2 now2
    unfold snapshot_payload
    cases hres : job.results with
    | none => rfl
    | some r =>
      exact update_job_heap_stable s id2 st2 pr2 stg2 msg2 err2 res2 now2 r
        (hvalid r hres)
  exact ⟨key st pr stg msg err res now, key _ _ _ _ _ _ _, key _ _ _ _ _ _ _⟩

def c8_job : Job :=
  { job_id := "job-1", status := JobStatus.completed, progress := 100,
    stage := JobStage.savingResults, message := "Processing completed",
    file_type := "video", filename := "a.mp4", created_at := 0, updated_at := 1,
    error := none, results := some 0 }

/-- Witness for C8: a snapshot of a completed job keeps dereferencing to the
payload 42 after the live job is updated and failed. -/
theorem C8_snapshot_stable_witness :
    get_job c2_state1 "job-1" = some c8_job ∧
    snapshot_payload c2_state1 c8_job = some 42 ∧
    snapshot_payload (update_job c2_state1 "job-1" (some JobStatus.failed)
      (some 0) none none (some "boom") none 2) c8_job = some 42 := by
  have h1 : get_job c2_state1 "job-1" = some c8_job := rfl
  have h2 : ∀ r, c8_job.results = some r → r < c2_state1.heap.length := by
    intro r hr
    have hr2 : (some 0 : Option ℕ) = some r := hr
    cases hr2
    decide
  have h3 : snapshot_payload c2_state1 c8_job = some 42 := rfl
  have h4 := (C8_snapshot_stable c2_state1 "job-1" "job-1" c8_job
    (some JobStatus.failed) (some 0) none none (some "boom") none 2 "x" 0 h1 h2).1
  exact ⟨h1, h3, h4.trans h3⟩

/-- Amended claim C5: the phenotype is assigned by the strictly ordered
first-match chain of the claim, with the one correction that when the minor
axis length is zero the aspect ratio is the bounding-box long side divided
by the short side plus 1e-6, as the source computes it. -/
theorem C5_classify_first_match (r : Region) :
    classify_phenotype r = classify_phenotype_claimC5_amended r := by
  unfold classify_phenotype classify_phenotype_claimC5_amended
  by_cases h1 : (3 : ℚ) ≤ region_aspect_ratio r
  · simp [h1]
  · simp only [if_neg h1]
    by_cases h2 : (2 : ℚ) ≤ region_aspect_ratio r ∧ region_aspect_ratio r < 3
    · by_cases h3 : 200 < r.area
      · simp [h2, h2.1, h2.2, h3]
      · simp [h2, h2.1, h2.2, h3, Nat.le_of_not_lt h3]
    · have h2a : ¬ ((2 : ℚ) ≤ region_aspect_ratio r ∧ region_aspect_ratio r < 3 ∧
          200 < r.area) := by tauto
      have h2b : ¬ ((2 : ℚ) ≤ region_aspect_ratio r ∧ region_aspect_ratio r < 3 ∧
          r.area ≤ 200) := by tauto
      simp [h2, h2a, h2b]

/-- The region measurements of a horizontal line of three pixels: skimage
reports a zero minor axis, bbox (0, 0, 1, 3), area 3. -/
def c5_region : Region :=
  { major_axis_length := 3, minor_axis_length := 0, bbox_min_row := 0,
    bbox_min_col := 0, bbox_max_row := 1, bbox_max_col := 3, area := 3,
    solidity := 1 }

/-- Counterexample to claim C5: on a degenerate region with zero minor axis
and bounding box 1 by 3, the exact bounding-box ratio of the claim is 3, so
the claim classifies it as elongated, but the source computes
3 / (1 + 1e-6) < 3 and classifies it as other. -/
theorem C5_counterexample :
    classify_phenotype c5_region = "other" ∧
    classify_phenotype_claimC5 c5_region = "elongated" := by
  have har : region_aspect_ratio c5_region = 3000000 / 1000001 := by
    unfold region_aspect_ratio c5_region
    norm_num
  have har2 : region_aspect_ratio_claimC5 c5_region = 3 := by
    unfold region_aspect_ratio_claimC5 c5_region
    norm_num
  have harea : c5_region.area = 3 := rfl
  constructor
  · unfold classify_phenotype
    rw [har]
    norm_num [harea]
  · unfold classify_phenotype_claimC5
    rw [har2]
    norm_num [harea]

/-- `classify_phenotype` always returns one of the four phenotype keys. -/
theorem classify_phenotype_mem (r : Region) :
    classify_phenotype r = "rod_like" ∨ classify_phenotype r = "elongated" ∨
    classify_phenotype r = "compact" ∨ classify_phenotype r = "other" := by
  unfold classify_phenotype
  by_cases h1 : (3 : ℚ) ≤ region_aspect_ratio r
  · simp [h1]
  · simp only [if_neg h1]
    by_cases h2 : (2 : ℚ) ≤ region_aspect_ratio r ∧ region_aspect_ratio r < 3
    · by_cases h3 : 200 < r.area <;> simp [h2, h3]
    · simp only [if_neg h2]
      by_cases h4 : region_aspect_ratio r < 1.8 ∧ (0.8 : ℚ) ≤ r.solidity <;> simp [h4]

/-- Claim C10: the phenotype-count mapping of `analyze_frame` has exactly
the keys rod_like, elongated, compact, other, all counts are non-negative,
and the counts sum to the number of returned component records, which is the
number of 8-connected foreground components of the mask: every component
receives exactly one phenotype. -/
theorem C10_phenotype_count_partition (mask : Grid ℚ)
    (descr : Finset (ℕ × ℕ) → Region) :
    (phenotype_counts mask descr).map Prod.fst =
      ["rod_like", "elongated", "compact", "other"] ∧
    (∀ kv ∈ phenotype_counts mask descr, 0 ≤ kv.2) ∧
    ((phenotype_counts mask descr).map Prod.snd).sum =
      Multiset.card (analyze_frame_components mask descr) ∧
    Multiset.card (analyze_frame_components mask descr) = (components mask).card := by
  refine ⟨rfl, fun kv _ => Nat.zero_le _, ?_, ?_⟩
  · have hcard : Multiset.card (analyze_frame_components mask descr)
        = (components mask).card := by
      unfold analyze_frame_components
      rw [Multiset.card_map]
      rfl
    rw [hcard]
    unfold phenotype_counts
    simp only [List.map_cons, List.map_nil, List.sum_cons, List.sum_nil, add_zero]
    rw [Finset.card_filter, Finset.card_filter, Finset.card_filter, Finset.card_filter]
    rw [← Finset.sum_add_distrib, ← Finset.sum_add_distrib, ← Finset.sum_add_distrib]
    rw [show (components mask).card = ∑ _c ∈ components mask, 1 from by simp]
    apply Finset.sum_congr rfl
    intro comp _
    rcases classify_phenotype_mem (descr comp) with h | h | h | h <;>
      simp [h]
  · unfold analyze_frame_components
    rw [Multiset.card_map]
    rfl

/-- Claim C4: `mask_cleaner` thresholds the probability mask, labels the
8-connected components, removes the components smaller than `min_area`
before any erosion, and erodes once only when the kernel size is positive.
On a mask whose foreground is a single connected blob of area A, the blob is
removed entirely when `min_area = A + 1` and is preserved unchanged before
erosion when `min_area ≤ A`. The structuring element `K` contains the anchor
offset. -/
theorem C4_mask_cleaner_blob (prob : Grid ℚ) (t : ℚ) (min_area k : ℕ)
    (K : Finset (ℤ × ℤ)) (hK : ((0 : ℤ), (0 : ℤ)) ∈ K)
    (hblob : ∀ p ∈ foreground (threshold_mask prob t),
      componentOf (foreground (threshold_mask prob t)) p
        = foreground (threshold_mask prob t)) :
    (mask_cleaner prob t min_area k K =
      if 0 < k then erode (remove_small (threshold_mask prob t) min_area) K
      else remove_small (threshold_mask prob t) min_area) ∧
    (min_area = (foreground (threshold_mask prob t)).card + 1 →
      allZero (mask_cleaner prob t min_area k K)) ∧
    (min_area ≤ (foreground (threshold_mask prob t)).card →
      Grid.eqOn (remove_small (threshold_mask prob t) min_area)
        (threshold_mask prob t)) := by
  have hdataT : ∀ i j, (threshold_mask prob t).data i j
      = if t < prob.data i j then 1 else 0 := fun _ _ => rfl
  have hdataR : ∀ i j, (remove_small (threshold_mask prob t) min_area).data i j
      = if ((i, j) ∈ foreground (threshold_mask prob t) ∧
            min_area ≤ (componentOf (foreground (threshold_mask prob t)) (i, j)).card)
        then 1 else 0 := fun _ _ => rfl
  have hrs_zero : min_area = (foreground (threshold_mask prob t)).card + 1 →
      ∀ i j, (remove_small (threshold_mask prob t) min_area).data i j = 0 := by
    intro hmin i j
    rw [hdataR, if_neg]
    rintro ⟨hin, hcardle⟩
    rw [hblob _ hin] at hcardle
    omega
  refine ⟨rfl, ?_, ?_⟩
  · intro hmin
    unfold mask_cleaner clean_mask
    by_cases hk : 0 < k
    · simp only [if_pos hk]
      intro i j hi hj
      have hiH : i < prob.H := hi
      have hjW : j < prob.W := hj
      have hcond : ¬ (∀ d ∈ K,
          (0 ≤ (i : ℤ) + d.1 ∧
            (i : ℤ) + d.1 < ((remove_small (threshold_mask prob t) min_area).H : ℤ) ∧
            0 ≤ (j : ℤ) + d.2 ∧
            (j : ℤ) + d.2 < ((remove_small (threshold_mask prob t) min_area).W : ℤ)) →
          0 < (remove_small (threshold_mask prob t) min_area).data
            ((i : ℤ) + d.1).toNat ((j : ℤ) + d.2).toNat) := by
        intro hall
        have h0 := hall ((0 : ℤ), (0 : ℤ)) hK
        simp only [add_zero] at h0
        have hval := h0 ⟨Int.ofNat_nonneg i, by exact_mod_cast hiH,
          Int.ofNat_nonneg j, by exact_mod_cast hjW⟩
        have hti : ((i : ℤ)).toNat = i := rfl
        have htj : ((j : ℤ)).toNat = j := rfl
        rw [hti, htj, hrs_zero hmin i j] at hval
        exact absurd hval (lt_irrefl 0)
      show (erode (remove_small (threshold_mask prob t) min_area) K).data i j = 0
      unfold erode
      simp only
      rw [if_neg hcond]
    · simp only [if_neg hk]
      intro i j _ _
      exact hrs_zero hmin i j
  · intro hmin
    refine ⟨rfl, rfl, ?_⟩
    intro i j hi hj
    have hiH : i < prob.H := hi
    have hjW : j < prob.W := hj
    rw [hdataR, hdataT]
    by_cases hfg : (i, j) ∈ foreground (threshold_mask prob t)
    · rw [if_pos ⟨hfg, by rw [hblob _ hfg]; exact hmin⟩]
      have hpos : 0 < (threshold_mask prob t).data i j := (Finset.mem_filter.mp hfg).2
      rw [hdataT] at hpos
      by_cases hlt : t < prob.data i j
      · rw [if_pos hlt]
      · rw [if_neg hlt] at hpos
        exact absurd hpos (lt_irrefl 0)
    · rw [if_neg (fun h => hfg h.1)]
      by_cases hlt : t < prob.data i j
      · exfalso
        apply hfg
        refine Finset.mem_filter.mpr ⟨?_, ?_⟩
        · exact Finset.mem_product.mpr
            ⟨Finset.mem_range.mpr hiH, Finset.mem_range.mpr hjW⟩
        · show (0 : ℚ) < (threshold_mask prob t).data i j
          rw [hdataT, if_pos hlt]
          norm_num
      · rw [if_neg hlt]

/-- A 2 by 2 probability mask whose top row is above the threshold 1: the
foreground is the single blob of the two top pixels. -/
def c4_prob : Grid ℚ := ⟨2, 2, fun i _ => if i = 0 then 2 else 0⟩

/-- A structuring element containing only the anchor. -/
def c4_kernel : Finset (ℤ × ℤ) := {((0 : ℤ), (0 : ℤ))}

/-- Witness for C4: on the concrete 2 by 2 mask the foreground is one blob
of area 2; with min_area 3 the cleaned mask is all zero, with min_area 2 the
area filter leaves the thresholded mask unchanged. -/
theorem C4_mask_cleaner_blob_witness :
    ((0 : ℤ), (0 : ℤ)) ∈ c4_kernel ∧
    (∀ p ∈ foreground (threshold_mask c4_prob 1),
      componentOf (foreground (threshold_mask c4_prob 1)) p
        = foreground (threshold_mask c4_prob 1)) ∧
    (foreground (threshold_mask c4_prob 1)).card = 2 ∧
    allZero (mask_cleaner c4_prob 1 3 1 c4_kernel) ∧
    Grid.eqOn (remove_small (threshold_mask c4_prob 1) 2)
      (threshold_mask c4_prob 1) := by
  have hK : ((0 : ℤ), (0 : ℤ)) ∈ c4_kernel := by decide
  have hblob : ∀ p ∈ foreground (threshold_mask c4_prob 1),
      componentOf (foreground (threshold_mask c4_prob 1)) p
        = foreground (threshold_mask c4_prob 1) := by decide
  have hcard : (foreground (threshold_mask c4_prob 1)).card = 2 := by decide
  have h1 := (C4_mask_cleaner_blob c4_prob 1 3 1 c4_kernel hK hblob).2.1 (by decide)
  have h2 := (C4_mask_cleaner_blob c4_prob 1 2 1 c4_kernel hK hblob).2.2 (by decide)
  exact ⟨hK, hblob, hcard, h1, h2⟩

/-! ### List helper lemmas for the detector proofs -/

/-- A `filterMap` whose body keeps the image of `g` under a test equals a
map followed by a filter. -/
theorem filterMap_if_eq_filter_map (g : ℕ → ℕ) (p : ℕ → Prop) [DecidablePred p]
    (l : List ℕ) :
    (l.filterMap fun i => if p (g i) then some (g i) else none)
      = (l.map g).filter (fun j => decide (p j)) := by
  induction l with
  | nil => rfl
  | cons a tl ih =>
    simp only [List.filterMap_cons, List.map_cons, List.filter_cons]
    by_cases h : p (g a)
    · simp [if_pos h, decide_eq_true h, ih]
    · simp [if_neg h, decide_eq_false h, ih]

/-- Reading an entry of a mapped index range. -/
theorem getD_map_range' (g : ℕ → ℝ) (s n i : ℕ) (hi : i < n) :
    ((List.range' s n).map g).getD i 0 = g (s + i) := by
  have hlen : i < ((List.range' s n).map g).length := by simpa using hi
  rw [List.getD_eq_getElem _ _ hlen]
  simp [List.getElem_range']

/-- The growth rate of the source agrees pointwise with the one worded by
claim C1: the guard `b[i-1] > 0` agrees with the guard `b[i-1] = 0` on
natural-number biomass values. -/
theorem growth_rate_at_eq_claimC1 (b : List ℕ) (i : ℕ) :
    growth_rate_at b i = growth_rate_at_claimC1 b i := by
  unfold growth_rate_at growth_rate_at_claimC1
  rcases Nat.eq_zero_or_pos (b.getD (i - 1) 0) with h | h
  · rw [if_neg (by omega), if_pos h]
  · rw [if_pos h, if_neg (by omega)]

/-- The growth-rate series of the source equals the series of claim C1. -/
theorem growth_rates_eq_claimC1 (b : List ℕ) :
    growth_rates b = growth_rates_claimC1 b := by
  unfold growth_rates growth_rates_claimC1
  exact List.map_congr_left (fun i _ => growth_rate_at_eq_claimC1 b i)

/-- The length of the growth-rate series is one less than the biomass
series length. -/
theorem growth_rates_length (b : List ℕ) :
    (growth_rates b).length = b.length - 1 := by
  unfold growth_rates
  simp

open Classical in
/-- The canonical event condition at `frame_idx`: the growth-spike test on
the series statistics or the component-count jump test. -/
noncomputable def event_cond (b c : List ℕ) (k : ℝ) (t : ℤ) (f : ℕ) : Prop :=
  (0 < list_pop_std (growth_rates b) ∧
    list_mean (growth_rates b) + k * list_pop_std (growth_rates b) < growth_rate_at b f)
  ∨ (f < c.length ∧ t ≤ (c.getD f 0 : ℤ) - (c.getD (f - 1) 0 : ℤ))

open Classical in
/-- Loop characterisation of the source detector: its event list is the
filter of the frame indices 2 .. n-1 by the event condition. -/
theorem detect_division_events_eq_filter (b c : List ℕ) (k : ℝ) (t : ℤ) :
    detect_division_events b c k t =
      if b.length < 3 then []
      else (List.range' 2 (b.length - 2)).filter
        (fun f => decide (event_cond b c k t f)) := by
  unfold detect_division_events
  by_cases hn : b.length < 3
  · rw [if_pos hn, if_pos hn]
  · rw [if_neg hn, if_neg hn]
    have hlen : (growth_rates b).length = b.length - 1 := growth_rates_length b
    rw [if_neg (by omega : ¬ (growth_rates b).length = 0)]
    have hbody : ∀ i ∈ List.range' 1 ((growth_rates b).length - 1),
        (if (0 < list_pop_std (growth_rates b) ∧
              list_mean (growth_rates b) +
                k * list_pop_std (growth_rates b) <
                (growth_rates b).getD i 0)
            ∨ (i + 1 < c.length ∧ 0 < i + 1 ∧
                t ≤ (c.getD (i + 1) 0 : ℤ) - (c.getD (i + 1 - 1) 0 : ℤ))
          then some (i + 1) else none)
          = (if event_cond b c k t (i + 1) then some (i + 1) else none) := by
      intro i hi
      have hmem := List.mem_range'_1.mp hi
      have hget : (growth_rates b).getD i 0 = growth_rate_at b (i + 1) := by
        unfold growth_rates
        rw [getD_map_range' (growth_rate_at b) 1 (b.length - 1) i (by omega)]
        rw [Nat.add_comm 1 i]
      refine if_congr ?_ rfl rfl
      unfold event_cond
      rw [hget]
      constructor
      · rintro (h | h)
        · exact Or.inl h
        · exact Or.inr ⟨h.1, by simpa using h.2.2⟩
      · rintro (h | h)
        · exact Or.inl h
        · exact Or.inr ⟨h.1, by omega, by simpa using h.2⟩
    rw [List.filterMap_congr hbody]
    rw [filterMap_if_eq_filter_map (fun i => i + 1) (event_cond b c k t)]
    have hmap : (List.range' 1 ((growth_rates b).length - 1)).map (fun i => i + 1)
        = List.range' 2 (b.length - 2) := by
      have : (fun i : ℕ => i + 1) = (fun i : ℕ => 1 + i) := funext fun i => Nat.add_comm i 1
      rw [this, List.map_add_range' 1 1 ((growth_rates b).length - 1), hlen,
        Nat.sub_sub]
    rw [hmap]

open Classical in
/-- The claim C1 event set also filters the frame indices 2 .. n-1 by the
same condition. -/
theorem division_events_claimC1_eq_filter (b c : List ℕ) (k : ℝ) (t : ℤ) :
    division_events_claimC1 b c k t =
      if b.length < 3 then []
      else (List.range' 2 (b.length - 2)).filter
        (fun f => decide (event_cond b c k t f)) := by
  unfold division_events_claimC1
  by_cases hn : b.length < 3
  · rw [if_pos hn, if_pos hn]
  · rw [if_neg hn, if_neg hn]
    have hlen : (growth_rates_claimC1 b).length = b.length - 1 := by
      rw [← growth_rates_eq_claimC1]
      exact growth_rates_length b
    have hrange : (growth_rates_claimC1 b).length - 1 = b.length - 2 := by omega
    rw [hrange]
    apply List.filter_congr
    intro f _
    apply decide_eq_decide.mpr
    unfold event_cond
    rw [← growth_rates_eq_claimC1, ← growth_rate_at_eq_claimC1]

/-- Claim C1: the detector computes the growth rates with the zero guard,
and flags exactly the frame indices 2 .. n-1 where the growth-spike test
(positive population standard deviation and rate above
mean + growth_spike_std times std) or the component-count jump test fires,
returning the empty result for series shorter than 3. -/
theorem C1_detect_division_events (b c : List ℕ) (k : ℝ) (t : ℤ) :
    detect_division_events b c k t = division_events_claimC1 b c k t := by
  rw [detect_division_events_eq_filter, division_events_claimC1_eq_filter]

/-! ### Constant biomass series (claim C6) -/

/-- On a constant positive biomass series every computed growth rate equals
`log(v / (v + 1e-6))`. -/
theorem growth_rates_replicate (n v : ℕ) (hv : 0 < v) :
    growth_rates (List.replicate n v)
      = List.replicate (n - 1) (Real.log ((v : ℝ) / ((v : ℝ) + 1e-6))) := by
  unfold growth_rates
  rw [List.length_replicate]
  have h : ∀ i ∈ List.range' 1 (n - 1),
      growth_rate_at (List.replicate n v) i
        = Real.log ((v : ℝ) / ((v : ℝ) + 1e-6)) := by
    intro i hi
    have hmem := List.mem_range'_1.mp hi
    unfold growth_rate_at
    have h1 : (List.replicate n v).getD (i - 1) 0 = v := by
      rw [List.getD_eq_getElem _ _ (by simp; omega)]
      simp
    have h2 : (List.replicate n v).getD i 0 = v := by
      rw [List.getD_eq_getElem _ _ (by simp; omega)]
      simp
    rw [h1, h2, if_pos hv]
  rw [List.map_congr_left h, List.map_const']
  simp

/-- `np.mean` of a constant list is the constant. -/
theorem list_mean_replicate (m : ℕ) (r : ℝ) (hm : m ≠ 0) :
    list_mean (List.replicate m r) = r := by
  unfold list_mean
  rw [List.sum_replicate, List.length_replicate, nsmul_eq_mul]
  field_simp

/-- `np.std` of a constant list is zero. -/
theorem list_pop_std_replicate (m : ℕ) (r : ℝ) :
    list_pop_std (List.replicate m r) = 0 := by
  unfold list_pop_std
  rcases Nat.eq_zero_or_pos m with hm | hm
  · subst hm
    simp
  · rw [list_mean_replicate m r (by omega), List.map_replicate]
    simp

/-- The detector finds no events on constant biomass and component series:
the growth rates are all equal so their standard deviation is zero, and the
component counts never increase. -/
theorem detect_division_events_replicate (n v cv : ℕ) (hv : 0 < v) (k : ℝ) :
    detect_division_events (List.replicate n v) (List.replicate n cv) k 1 = [] := by
  rw [detect_division_events_eq_filter]
  by_cases hn : (List.replicate n v).length < 3
  · rw [if_pos hn]
  · rw [if_neg hn]
    rw [List.length_replicate] at hn
    apply List.filter_eq_nil_iff.mpr
    intro f hf
    have hmem := List.mem_range'_1.mp hf
    rw [List.length_replicate] at hmem
    simp only [decide_eq_true_eq]
    intro hcond
    rcases hcond with hspike | hjump
    · rw [growth_rates_replicate n v hv, list_pop_std_replicate] at hspike
      exact absurd hspike.1 (lt_irrefl 0)
    · have hflen : f < n := by
        have := hjump.1
        rw [List.length_replicate] at this
        omega
      have hg1 : (List.replicate n cv).getD f 0 = cv := by
        rw [List.getD_eq_getElem _ _ (by simp; omega)]
        simp
      have hg2 : (List.replicate n cv).getD (f - 1) 0 = cv := by
        rw [List.getD_eq_getElem _ _ (by simp; omega)]
        simp
      rw [hg1, hg2] at hjump
      omega

/-- The growth-rate column of the pipeline on a constant positive biomass
series: a leading zero followed by the constant `log(v / (v + 1e-6))`. -/
theorem pipeline_growth_rates_replicate (n v : ℕ) (hv : 0 < v) :
    pipeline_growth_rates (List.replicate n v)
      = 0 :: List.replicate (n - 1) (Real.log ((v : ℝ) / ((v : ℝ) + 1e-6))) := by
  unfold pipeline_growth_rates
  rw [growth_rates_replicate n v hv]

/-- For positive biomass the computed constant growth rate is strictly
negative, not zero: the fudge term 1e-6 makes the ratio less than one. -/
theorem constant_growth_rate_neg (v : ℕ) (hv : 0 < v) :
    Real.log ((v : ℝ) / ((v : ℝ) + 1e-6)) < 0 := by
  have hv0 : (0 : ℝ) < (v : ℝ) := by exact_mod_cast hv
  apply Real.log_neg
  · positivity
  · rw [div_lt_one (by positivity)]
    norm_num

/-- The metrics export has one row per analyzed frame. -/
theorem metrics_num_rows_eq (bm : List ℕ) : metrics_num_rows bm = bm.length := by
  unfold metrics_num_rows metrics_frame_column
  simp

/-- Identical frames give identical windows, hence a constant biomass
series: one window of five copies per analyzed frame. -/
theorem pipeline_biomass_replicate (m : ℕ) (f : Grid ℚ)
    (pc : List (Grid ℚ) → Grid ℚ) :
    pipeline_biomass (List.replicate m f) pc
      = List.replicate (m - 4) (compute_biomass (pc (List.replicate 5 f))) := by
  unfold pipeline_biomass create_frame_sequence
  simp only [List.length_replicate, List.map_map]
  have hwin : ∀ c ∈ List.range' (5 / 2) (m - 2 * (5 / 2)),
      ((fun cw : ℕ × List (Grid ℚ) => compute_biomass (pc cw.2)) ∘
        (fun center_idx => (center_idx,
          (List.range 5).map
            (fun i => (List.replicate m f).getD (center_idx - 5 / 2 + i) default)))) c
        = compute_biomass (pc (List.replicate 5 f)) := by
    intro c hc
    have hmem := List.mem_range'_1.mp hc
    have hwindow : (List.range 5).map
        (fun i => (List.replicate m f).getD (c - 5 / 2 + i) default)
          = List.replicate 5 f := by
      have hentry : ∀ i ∈ List.range 5,
          (List.replicate m f).getD (c - 5 / 2 + i) default = f := by
        intro i hi
        have hi5 := List.mem_range.mp hi
        have hidx : c - 5 / 2 + i < m := by omega
        rw [List.getD_eq_getElem _ _ (by simpa using hidx)]
        simp
      rw [List.map_congr_left hentry, List.map_const']
      simp
    simp only [Function.comp]
    rw [hwindow]
  rw [List.map_congr_left hwin, List.map_const']
  simp only [List.length_range']

/-- Amended claim C6: on every constant positive biomass series the pipeline
growth rate is 0 at the first analyzed frame and the strictly negative
constant `log(v / (v + 1e-6))` (not exactly 0) at every subsequent one, the
detector returns no events even with the pipeline arguments
`growth_spike_std = 2.0` and threshold 1, the metrics export has exactly one
row per analyzed frame, and identical frames do produce a constant biomass
series with one entry per window (3 windows for 7 frames). -/
theorem C6_constant_series (v cv n : ℕ) (hv : 0 < v) :
    pipeline_growth_rates (List.replicate n v)
      = 0 :: List.replicate (n - 1) (Real.log ((v : ℝ) / ((v : ℝ) + 1e-6))) ∧
    Real.log ((v : ℝ) / ((v : ℝ) + 1e-6)) < 0 ∧
    detect_division_events (List.replicate n v) (List.replicate n cv) 2 1 = [] ∧
    metrics_num_rows (List.replicate n v) = n ∧
    (∀ (m : ℕ) (f : Grid ℚ) (pc : List (Grid ℚ) → Grid ℚ),
      pipeline_biomass (List.replicate m f) pc
        = List.replicate (m - 4) (compute_biomass (pc (List.replicate 5 f)))) := by
  refine ⟨pipeline_growth_rates_replicate n v hv, constant_growth_rate_neg v hv,
    detect_division_events_replicate n v cv hv 2, ?_, pipeline_biomass_replicate⟩
  rw [metrics_num_rows_eq]
  simp

/-- Witness for the amended C6 at the constant series of three ones. -/
theorem C6_constant_series_witness :
    0 < 1 ∧
    detect_division_events (List.replicate 3 1) (List.replicate 3 1) 2 1 = [] ∧
    metrics_num_rows (List.replicate 3 1) = 3 ∧
    (pipeline_growth_rates (List.replicate 3 1)).length = 3 := by
  have h := C6_constant_series 1 1 3 (by norm_num)
  refine ⟨by norm_num, h.2.2.1, h.2.2.2.1, ?_⟩
  rw [h.1]
  simp

/-- Counterexample to claim C6: on the constant positive biomass series
[1, 1, 1] the growth rate at the second analyzed frame is strictly negative,
not exactly 0. -/
theorem C6_counterexample :
    (pipeline_growth_rates [1, 1, 1]).getD 1 0 < 0 ∧
    (pipeline_growth_rates [1, 1, 1]).getD 1 0 ≠ 0 := by
  have h : pipeline_growth_rates [1, 1, 1]
      = 0 :: List.replicate 2 (Real.log (((1 : ℕ) : ℝ) / (((1 : ℕ) : ℝ) + 1e-6))) :=
    pipeline_growth_rates_replicate 3 1 (by norm_num)
  have hneg := constant_growth_rate_neg 1 (by norm_num)
  rw [h]
  simp only [List.getD_cons_succ, List.getD_cons_zero]
  constructor
  · simpa using hneg
  · simpa using ne_of_lt hneg

/-! ### Detector defaults (claim C7) -/

/-- Amended claim C7: the source defaults are `growth_spike_std = 1.0` and
`component_increase_threshold = 1`, and a call that omits the parameters
behaves exactly as a call with 1.0 and 1. -/
theorem C7_defaults_are_one (b c : List ℕ) :
    detect_division_events_defaults b c = detect_division_events b c 1 1 := rfl

open Classical in
/-- Counterexample to claim C7: on the biomass series [0, 0, 1, 3] with
constant component counts, the growth rates are [0, 0, Y] with Y positive,
whose last entry sits exactly sqrt 2 standard deviations above the mean; a
call with the parameters omitted (defaults 1.0) flags frame 3 while a call
with growth_spike_std = 2.0 flags nothing, so omitted parameters do not
behave as 2.0. -/
theorem C7_counterexample :
    detect_division_events_defaults [0, 0, 1, 3] [1, 1, 1, 1] = [3] ∧
    detect_division_events [0, 0, 1, 3] [1, 1, 1, 1] 2 1 = [] ∧
    detect_division_events_defaults [0, 0, 1, 3] [1, 1, 1, 1]
      ≠ detect_division_events [0, 0, 1, 3] [1, 1, 1, 1] 2 1 := by
  set Y := Real.log ((3 : ℝ) / (1 + 1e-6)) with hYdef
  have hY : 0 < Y := by
    rw [hYdef]
    exact Real.log_pos (by norm_num)
  have hs2a : Real.sqrt 2 < 2 := (Real.sqrt_lt' (by norm_num)).mpr (by norm_num)
  have hs2b : (1 : ℝ) ≤ Real.sqrt 2 := by
    rw [show (1 : ℝ) = Real.sqrt 1 from Real.sqrt_one.symm]
    exact Real.sqrt_le_sqrt (by norm_num)
  have hrates : growth_rates [0, 0, 1, 3] = [0, 0, Y] := by
    unfold growth_rates growth_rate_at
    rw [show List.range' 1 ([0, 0, 1, 3].length - 1) = [1, 2, 3] from rfl]
    simp only [List.map_cons, List.map_nil]
    norm_num [List.getD, hYdef]
  have hg2 : growth_rate_at [0, 0, 1, 3] 2 = 0 := by
    unfold growth_rate_at
    norm_num [List.getD]
  have hg3 : growth_rate_at [0, 0, 1, 3] 3 = Y := by
    unfold growth_rate_at
    norm_num [List.getD, hYdef]
  have hmean : list_mean [(0 : ℝ), 0, Y] = Y / 3 := by
    unfold list_mean
    simp
  have hstd : list_pop_std [(0 : ℝ), 0, Y] = Real.sqrt 2 * Y / 3 := by
    unfold list_pop_std
    rw [hmean]
    simp only [List.map_cons, List.map_nil, List.sum_cons, List.sum_nil,
      List.length_cons, List.length_nil]
    rw [show ((0 - Y / 3) ^ 2 + ((0 - Y / 3) ^ 2 + ((Y - Y / 3) ^ 2 + 0)))
        / ((0 + 1 + 1 + 1 : ℕ) : ℝ) = 2 * Y ^ 2 / 9 from by push_cast; ring]
    rw [show 2 * Y ^ 2 / 9 = (Real.sqrt 2 * Y / 3) ^ 2 from by
      rw [div_pow, mul_pow, Real.sq_sqrt (by norm_num : (0 : ℝ) ≤ 2)]
      ring]
    exact Real.sqrt_sq
      (div_nonneg (mul_nonneg (Real.sqrt_nonneg 2) hY.le) (by norm_num))
  have hcond2 : ∀ k : ℝ, 0 < k → ¬ event_cond [0, 0, 1, 3] [1, 1, 1, 1] k 1 2 := by
    intro k hk
    unfold event_cond
    rw [hrates, hmean, hstd, hg2]
    rintro (⟨_, hlt⟩ | ⟨_, hjump⟩)
    · have hnn : 0 ≤ k * (Real.sqrt 2 * Y / 3) :=
        mul_nonneg hk.le
          (div_nonneg (mul_nonneg (Real.sqrt_nonneg 2) hY.le) (by norm_num))
      have : (0 : ℝ) < Y / 3 := by linarith
      linarith
    · simp [List.getD] at hjump
  have hcond3k1 : event_cond [0, 0, 1, 3] [1, 1, 1, 1] 1 1 3 := by
    unfold event_cond
    rw [hrates, hmean, hstd, hg3]
    left
    refine ⟨?_, ?_⟩
    · have hs2pos : (0 : ℝ) < Real.sqrt 2 := by linarith
      positivity
    · nlinarith [hY, hs2a]
  have hcond3k2 : ¬ event_cond [0, 0, 1, 3] [1, 1, 1, 1] 2 1 3 := by
    unfold event_cond
    rw [hrates, hmean, hstd, hg3]
    rintro (⟨_, hlt⟩ | ⟨_, hjump⟩)
    · nlinarith [hY, hs2b]
    · simp [List.getD] at hjump
  have e1 : detect_division_events [0, 0, 1, 3] [1, 1, 1, 1] 1 1 = [3] := by
    rw [detect_division_events_eq_filter]
    rw [if_neg (by norm_num)]
    rw [show List.range' 2 ([0, 0, 1, 3].length - 2) = [2, 3] from rfl]
    have d2 := decide_eq_false (hcond2 1 one_pos)
    have d3 := decide_eq_true hcond3k1
    simp [List.filter, d2, d3]
  have e2 : detect_division_events [0, 0, 1, 3] [1, 1, 1, 1] 2 1 = [] := by
    rw [detect_division_events_eq_filter]
    rw [if_neg (by norm_num)]
    rw [show List.range' 2 ([0, 0, 1, 3].length - 2) = [2, 3] from rfl]
    have d2 := decide_eq_false (hcond2 2 two_pos)
    have d3 := decide_eq_false hcond3k2
    simp [List.filter, d2, d3]
  have e1d : detect_division_events_defaults [0, 0, 1, 3] [1, 1, 1, 1] = [3] := by
    unfold detect_division_events_defaults
    exact e1
  refine ⟨e1d, e2, ?_⟩
  rw [e1d, e2]
  simp

end MicrobialSeg
